import Mathlib

/-!
# Verification of `pyTMD/calc_delta_time.py`

A shallow embedding of the two functions of `calc_delta_time.py`:

* `calc_modified_julian_day` — pure arithmetic mapping a calendar date
  (year, month, day) to a Modified Julian Day.  Python floats are modelled
  as rationals (`ℚ`), `np.floor` as the real floor coerced back to `ℚ`.
* `calc_delta_time` — reads a whitespace-delimited delta-time table,
  converts its date columns to MJD, fits a degree-1 zero-smoothing spline
  through the (MJD, delta-time) pairs and evaluates it at the query points.

The file I/O and the numerical-library parts (`np.loadtxt`, numpy fancy
indexing, `scipy.interpolate.UnivariateSpline`) are not part of the
repository's source; they are modelled from the specification.  Fallible
steps are modelled with `Except String`.
-/

/-- Embedding of `np.floor` on a Python float, modelled over `ℚ`: the
greatest integer not exceeding the argument, returned as a rational
(numpy's floor returns a float, not an integer). -/
def np_floor (x : ℚ) : ℚ := x.floor

theorem np_floor_eq (x : ℚ) : np_floor x = (⌊x⌋ : ℤ) := by
  rw [np_floor, Rat.floor_def, Rat.floor_def']

/-- Embedding of `calc_modified_julian_day(YEAR, MONTH, DAY)` (scalar case),
transcribed term by term from the source:

`MJD = 367.*YEAR - np.floor(7.*(YEAR + np.floor((MONTH+9.)/12.))/4.)
       - np.floor(3.*(np.floor((YEAR + (MONTH - 9.)/7.)/100.) + 1.)/4.)
       + np.floor(275.*MONTH/9.) + DAY + 1721028.5 - 2400000.5` -/
def calc_modified_julian_day (YEAR MONTH DAY : ℚ) : ℚ :=
  367 * YEAR - np_floor (7 * (YEAR + np_floor ((MONTH + 9) / 12)) / 4) -
    np_floor (3 * (np_floor ((YEAR + (MONTH - 9) / 7) / 100) + 1) / 4) +
    np_floor (275 * MONTH / 9) + DAY + 1721028.5 - 2400000.5

/-- Element-wise (numpy-vectorized) behaviour of `calc_modified_julian_day`
when the three inputs are equal-length sequences: every numpy operation in
the formula acts element-wise, so the result is the scalar formula mapped
over corresponding triples. -/
def calc_modified_julian_day_arr (ys ms ds : List ℚ) : List ℚ :=
  List.zipWith3 calc_modified_julian_day ys ms ds

/-- The Modified Julian Day formula exactly as written in the specification
(§4.1):

`MJD = 367*Y - floor(7*(Y + floor((M+9)/12))/4)
       - floor(3*(floor((Y+(M-9)/7)/100)+1)/4)
       + floor(275*M/9) + D + 1721028.5 - 2400000.5` -/
def mjd_spec_formula (Y M D : ℚ) : ℚ :=
  367 * Y - np_floor (7 * (Y + np_floor ((M + 9) / 12)) / 4) -
    np_floor (3 * (np_floor ((Y + (M - 9) / 7) / 100) + 1) / 4) +
    np_floor (275 * M / 9) + D + 1721028.5 - 2400000.5

/-- A numpy `ndarray` of floats, reduced to what the claims need: its shape
and its (flattened) data.  `np.array(x)` on a Python scalar `x` yields a
0-dimensional array (`shape = []`) holding the single element `x`. -/
structure NpArray where
  shape : List Nat
  data : List ℚ
  deriving DecidableEq, Repr

/-- Embedding of `np.array(x, dtype=np.float)` applied to a scalar: a
0-dimensional single-element array. -/
def np_array_scalar (x : ℚ) : NpArray := ⟨[], [x]⟩

/-- The value `calc_modified_julian_day` actually returns for scalar input:
the final statement of the source is `return np.array(MJD, dtype=np.float)`,
so the scalar formula value is wrapped into an array. -/
def calc_modified_julian_day_out (YEAR MONTH DAY : ℚ) : NpArray :=
  np_array_scalar (calc_modified_julian_day YEAR MONTH DAY)

/-- Modelled from the spec: the outcome of `np.loadtxt(os.path.expanduser(delta_file))`
on the file named by `delta_file`.  `np.loadtxt` is library code outside this
repository; per the spec it parses the file as whitespace-delimited numeric
rows and "fails with a parsing/IO error if the file is missing or malformed
(propagated, not handled locally)".  A load is therefore either an error
(missing/unreadable file, non-numeric content, ragged rows) or the list of
parsed numeric rows. -/
def LoadResult : Type := Except String (List (List ℚ))

/-- Modelled from the spec: numpy 2-D column indexing `dinput[:, k]`.
`np.loadtxt` returns a 2-D array only when the file has at least two rows;
a single-row (or empty) file loads as a 1-D array, on which the
two-dimensional index `[:, k]` raises `IndexError: too many indices`.
On a 2-D array the index raises `IndexError` when column `k` does not
exist, and otherwise selects the `k`-th entry of every row. -/
def getCol (dinput : List (List ℚ)) (k : Nat) : Except String (List ℚ) :=
  if dinput.length < 2 then
    Except.error "IndexError: too many indices for array"
  else if dinput.all fun r => k < r.length then
    Except.ok (dinput.map fun r => r.getD k 0)
  else
    Except.error "IndexError: index out of bounds"

/-- The straight line through the two points `p` and `q`, evaluated at `x`
(the chord/segment formula; the spec's "linear" interpolant and
extrapolant). -/
def lineThrough (p q : ℚ × ℚ) (x : ℚ) : ℚ :=
  p.2 + (q.2 - p.2) * (x - p.1) / (q.1 - p.1)

/-- Modelled from the spec: evaluation of
`scipy.interpolate.UnivariateSpline(MJD, delta_t, k=1, s=0, ext=0)`, scipy
library code outside this repository.  Per the spec (§4.2, glossary) a
degree-1 spline with zero smoothing is "a piecewise-linear interpolant
passing exactly through all input points, extrapolated linearly beyond the
data range" using "the two nearest boundary points' slope".  Given the knot
points (strictly increasing abscissae assumed by the fit), a query left of
the second knot — including queries below the first knot — is evaluated on
the line through the first two points; otherwise the evaluation recurses
into the remaining knots, so a query beyond the last knot ends on the line
through the last two points. -/
def splineEval : List (ℚ × ℚ) → ℚ → ℚ
  | [], _ => 0
  | [p], _ => p.2
  | p :: q :: rest, x =>
    if x ≤ q.1 ∨ rest = [] then lineThrough p q x
    else splineEval (q :: rest) x

/-- The delta-time table pipeline of `calc_delta_time`, shared by scalar and
sequence queries (the source has a single code path): bind the load result,
extract the four columns
(`dinput[:,0]`, `dinput[:,1]`, `dinput[:,2]`, `dinput[:,3]`), convert the
date columns to MJD with `calc_modified_julian_day`, and pair each table
MJD with its delta-time, giving the knot points of the spline fit. -/
def calc_delta_time_core (load : Except String (List (List ℚ))) :
    Except String (List (ℚ × ℚ)) := do
  let dinput ← load
  let years ← getCol dinput 0
  let months ← getCol dinput 1
  let days ← getCol dinput 2
  let deltat ← getCol dinput 3
  return (List.zipWith3 calc_modified_julian_day years months days).zip deltat

/-- Embedding of `calc_delta_time(delta_file, iMJD)` for a sequence query
`iMJD`: load and convert the table (`calc_delta_time_core`), then evaluate
the degree-1 spline at every query point (`return spl(iMJD)`). -/
def calc_delta_time (load : Except String (List (List ℚ))) (iMJD : List ℚ) :
    Except String (List ℚ) :=
  (calc_delta_time_core load).map fun pts => iMJD.map (splineEval pts)

/-- Embedding of `calc_delta_time(delta_file, iMJD)` for a scalar query:
the identical code path, with the spline evaluated at the single point. -/
def calc_delta_time_scalar (load : Except String (List (List ℚ))) (q : ℚ) :
    Except String ℚ :=
  (calc_delta_time_core load).map fun pts => splineEval pts q

/-- The MJD column a delta-time table produces: `calc_modified_julian_day`
applied element-wise to columns 0, 1, 2 of the table. -/
def tableMJD (rows : List (List ℚ)) : List ℚ :=
  List.zipWith3 calc_modified_julian_day
    (rows.map fun r => r.getD 0 0) (rows.map fun r => r.getD 1 0)
    (rows.map fun r => r.getD 2 0)

/-- The knot points of the spline fit of a delta-time table:
the table's MJDs paired with column 3 (the delta times). -/
def tablePts (rows : List (List ℚ)) : List (ℚ × ℚ) :=
  (tableMJD rows).zip (rows.map fun r => r.getD 3 0)

/-- A concrete three-row delta-time table whose rows have MJDs 0, 1000 and
2000 (1858-11-17, 1861-08-13 and 1864-05-09) and delta times 32, 33, 34. -/
def exampleRows : List (List ℚ) :=
  [[1858, 11, 17, 32], [1861, 8, 13, 33], [1864, 5, 9, 34]]

/-! ## Helper lemmas -/

theorem zipWith3_length (f : ℚ → ℚ → ℚ → ℚ) :
    ∀ (as bs cs : List ℚ), as.length = bs.length → as.length = cs.length →
      (List.zipWith3 f as bs cs).length = as.length
  | [], [], [], _, _ => rfl
  | [], _ :: _, _, h, _ => by simp at h
  | [], [], _ :: _, _, h => by simp at h
  | _ :: _, [], _, h, _ => by simp at h
  | _ :: _, _ :: _, [], _, h => by simp at h
  | a :: as, b :: bs, c :: cs, h1, h2 => by
    simp only [List.zipWith3, List.length_cons]
    rw [zipWith3_length f as bs cs (by simpa using h1) (by simpa using h2)]

theorem zipWith3_getD (f : ℚ → ℚ → ℚ → ℚ) :
    ∀ (as bs cs : List ℚ) (i : Nat), i < as.length → as.length = bs.length →
      as.length = cs.length →
      (List.zipWith3 f as bs cs).getD i 0 =
        f (as.getD i 0) (bs.getD i 0) (cs.getD i 0)
  | [], _, _, i, hi, _, _ => by simp at hi
  | _ :: _, [], _, _, _, h, _ => by simp at h
  | _ :: _, _ :: _, [], _, _, _, h => by simp at h
  | a :: as, b :: bs, c :: cs, 0, _, _, _ => rfl
  | a :: as, b :: bs, c :: cs, i + 1, hi, h1, h2 => by
    simp only [List.zipWith3, List.getD_cons_succ]
    exact zipWith3_getD f as bs cs i (by simpa using hi) (by simpa using h1)
      (by simpa using h2)

theorem tableMJD_length (rows : List (List ℚ)) :
    (tableMJD rows).length = rows.length := by
  rw [tableMJD, zipWith3_length] <;> simp

theorem tablePts_length (rows : List (List ℚ)) :
    (tablePts rows).length = rows.length := by
  rw [tablePts, List.length_zip, tableMJD_length]
  simp

theorem tablePts_getD (rows : List (List ℚ)) (i : Nat) (hi : i < rows.length) :
    (tablePts rows).getD i (0, 0) =
      ((tableMJD rows).getD i 0, (rows.map fun r => r.getD 3 0).getD i 0) := by
  have h1 : i < (tableMJD rows).length := by rw [tableMJD_length]; exact hi
  have h2 : i < (rows.map fun r => r.getD 3 0).length := by simpa using hi
  have hz : i < (tablePts rows).length := by rw [tablePts_length]; exact hi
  rw [List.getD_eq_getElem _ _ hz, List.getD_eq_getElem _ _ h1,
    List.getD_eq_getElem _ _ h2]
  exact List.getElem_zip

theorem lineThrough_fst (p q : ℚ × ℚ) : lineThrough p q p.1 = p.2 := by
  simp [lineThrough]

theorem lineThrough_snd (p q : ℚ × ℚ) (h : p.1 ≠ q.1) :
    lineThrough p q q.1 = q.2 := by
  have h' : q.1 - p.1 ≠ 0 := sub_ne_zero.mpr (Ne.symm h)
  field_simp [lineThrough]

theorem head_le_getD (a : ℚ × ℚ) (l : List (ℚ × ℚ))
    (hpair : (a :: l).Pairwise fun p q => p.1 < q.1) :
    ∀ i, i < (a :: l).length → a.1 ≤ ((a :: l).getD i (0, 0)).1 := by
  intro i hi
  cases i with
  | zero => exact le_refl _
  | succ j =>
    have hj : j < l.length := by simpa using hi
    have hmem : l.getD j (0, 0) ∈ l := by
      rw [List.getD_eq_getElem _ _ hj]
      exact List.getElem_mem _
    exact le_of_lt ((List.pairwise_cons.mp hpair).1 _ hmem)

theorem splineEval_at_knot :
    ∀ pts : List (ℚ × ℚ), pts.Pairwise (fun a b => a.1 < b.1) →
      2 ≤ pts.length → ∀ p ∈ pts, splineEval pts p.1 = p.2
  | [], _, hlen, _, _ => by simp at hlen
  | [_], _, hlen, _, _ => by simp at hlen
  | p :: q :: rest, hpair, _, pt, hpt => by
    have hpq : p.1 < q.1 := (List.pairwise_cons.mp hpair).1 q (by simp)
    rcases List.mem_cons.mp hpt with rfl | hpt'
    · rw [splineEval, if_pos (Or.inl (le_of_lt hpq))]
      exact lineThrough_fst pt q
    rcases List.mem_cons.mp hpt' with rfl | hpt''
    · rw [splineEval, if_pos (Or.inl (le_refl _))]
      exact lineThrough_snd p pt (ne_of_lt hpq)
    · have hpairt : (q :: rest).Pairwise fun a b => a.1 < b.1 :=
        (List.pairwise_cons.mp hpair).2
      have hqpt : q.1 < pt.1 := (List.pairwise_cons.mp hpairt).1 pt hpt''
      have hrest : rest ≠ [] := List.ne_nil_of_mem hpt''
      rw [splineEval, if_neg (by push_neg; exact ⟨hqpt, hrest⟩)]
      exact splineEval_at_knot (q :: rest) hpairt
        (by cases rest with
          | nil => exact absurd rfl hrest
          | cons _ _ => simp)
        pt (List.mem_cons_of_mem q hpt'')

theorem splineEval_segment :
    ∀ (pts : List (ℚ × ℚ)) (i : Nat) (x : ℚ),
      pts.Pairwise (fun a b => a.1 < b.1) → i + 1 < pts.length →
      (pts.getD i (0, 0)).1 < x → x ≤ (pts.getD (i + 1) (0, 0)).1 →
      splineEval pts x =
        lineThrough (pts.getD i (0, 0)) (pts.getD (i + 1) (0, 0)) x
  | [], i, x, _, hlen, _, _ => by simp at hlen
  | [_], i, x, _, hlen, _, _ => by simp at hlen
  | p :: q :: rest, 0, x, hpair, _, hlo, hhi => by
    rw [splineEval, if_pos (Or.inl (by simpa using hhi))]
    simp
  | p :: q :: rest, i + 1, x, hpair, hlen, hlo, hhi => by
    have hpairt : (q :: rest).Pairwise fun a b => a.1 < b.1 :=
      (List.pairwise_cons.mp hpair).2
    have hlen' : i + 1 < (q :: rest).length := by simpa using hlen
    have hq_le : q.1 ≤ ((q :: rest).getD i (0, 0)).1 :=
      head_le_getD q rest hpairt i (by omega)
    have hqx : q.1 < x := lt_of_le_of_lt hq_le (by simpa using hlo)
    have hrest : rest ≠ [] := by
      cases rest with
      | nil => simp at hlen'
      | cons _ _ => simp
    rw [splineEval, if_neg (by push_neg; exact ⟨hqx, hrest⟩)]
    simpa using splineEval_segment (q :: rest) i x hpairt hlen'
      (by simpa using hlo) (by simpa using hhi)

theorem splineEval_before_first :
    ∀ (pts : List (ℚ × ℚ)) (x : ℚ), pts.Pairwise (fun a b => a.1 < b.1) →
      2 ≤ pts.length → x < (pts.getD 0 (0, 0)).1 →
      splineEval pts x = lineThrough (pts.getD 0 (0, 0)) (pts.getD 1 (0, 0)) x
  | [], x, _, hlen, _ => by simp at hlen
  | [_], x, _, hlen, _ => by simp at hlen
  | p :: q :: rest, x, hpair, _, hx => by
    have hpq : p.1 < q.1 := (List.pairwise_cons.mp hpair).1 q (by simp)
    have hx' : x < p.1 := by simpa using hx
    rw [splineEval, if_pos (Or.inl (le_of_lt (lt_trans hx' hpq)))]
    rfl

theorem splineEval_beyond_last :
    ∀ (pts : List (ℚ × ℚ)) (x : ℚ), pts.Pairwise (fun a b => a.1 < b.1) →
      2 ≤ pts.length → (pts.getD (pts.length - 1) (0, 0)).1 < x →
      splineEval pts x =
        lineThrough (pts.getD (pts.length - 2) (0, 0))
          (pts.getD (pts.length - 1) (0, 0)) x
  | [], x, _, hlen, _ => by simp at hlen
  | [_], x, _, hlen, _ => by simp at hlen
  | [p, q], x, hpair, _, hx => by
    rw [splineEval, if_pos (Or.inr rfl)]
    rfl
  | p :: q :: r :: rest, x, hpair, _, hx => by
    have hpairt : (q :: r :: rest).Pairwise fun a b => a.1 < b.1 :=
      (List.pairwise_cons.mp hpair).2
    have hidx1 : (p :: q :: r :: rest).length - 1 =
        ((q :: r :: rest).length - 1) + 1 := by simp
    have hidx2 : (p :: q :: r :: rest).length - 2 =
        ((q :: r :: rest).length - 2) + 1 := by simp
    have hgd1 : (p :: q :: r :: rest).getD ((p :: q :: r :: rest).length - 1) (0, 0) =
        (q :: r :: rest).getD ((q :: r :: rest).length - 1) (0, 0) := by
      rw [hidx1, List.getD_cons_succ]
    have hgd2 : (p :: q :: r :: rest).getD ((p :: q :: r :: rest).length - 2) (0, 0) =
        (q :: r :: rest).getD ((q :: r :: rest).length - 2) (0, 0) := by
      rw [hidx2, List.getD_cons_succ]
    have hx' : ((q :: r :: rest).getD ((q :: r :: rest).length - 1) (0, 0)).1 < x := by
      rw [← hgd1]; exact hx
    have hq_le : q.1 ≤ ((q :: r :: rest).getD ((q :: r :: rest).length - 1) (0, 0)).1 :=
      head_le_getD q (r :: rest) hpairt _ (by simp)
    have hqx : q.1 < x := lt_of_le_of_lt hq_le hx'
    rw [splineEval, if_neg (by push_neg; exact ⟨hqx, by simp⟩)]
    rw [hgd1, hgd2]
    exact splineEval_beyond_last (q :: r :: rest) x hpairt (by simp) hx'

theorem tablePts_pairwise (rows : List (List ℚ))
    (hchain : List.Chain' (· < ·) (tableMJD rows)) :
    (tablePts rows).Pairwise fun a b => a.1 < b.1 := by
  have hp : (tableMJD rows).Pairwise (· < ·) := List.chain'_iff_pairwise.mp hchain
  have hfst : (tablePts rows).map Prod.fst = tableMJD rows :=
    List.map_fst_zip _ _ (by rw [tableMJD_length]; simp)
  rw [← hfst] at hp
  exact List.pairwise_map.mp hp

theorem getCol_ok (rows : List (List ℚ)) (k : Nat) (h2 : 2 ≤ rows.length)
    (hk : ∀ r ∈ rows, k < r.length) :
    getCol rows k = Except.ok (rows.map fun r => r.getD k 0) := by
  rw [getCol, if_neg (by omega), if_pos]
  exact List.all_eq_true.mpr fun r hr => decide_eq_true (hk r hr)

theorem except_bind_ok {α β : Type} (a : α) (f : α → Except String β) :
    (Except.ok a >>= f) = f a := rfl

theorem except_map_ok {α β : Type} (a : α) (f : α → β) :
    (f <$> (Except.ok a : Except String α)) = Except.ok (f a) := rfl

theorem calc_delta_time_core_ok (rows : List (List ℚ)) (h2 : 2 ≤ rows.length)
    (h4 : ∀ r ∈ rows, 4 ≤ r.length) :
    calc_delta_time_core (Except.ok rows) = Except.ok (tablePts rows) := by
  have hg : ∀ k, k < 4 → getCol rows k = Except.ok (rows.map fun r => r.getD k 0) :=
    fun k hk => getCol_ok rows k h2 fun r hr => lt_of_lt_of_le hk (h4 r hr)
  simp only [calc_delta_time_core, except_bind_ok, hg 0 (by omega), hg 1 (by omega),
    hg 2 (by omega), hg 3 (by omega), except_map_ok, tablePts, tableMJD]
  rfl

theorem calc_delta_time_ok (rows : List (List ℚ)) (qs : List ℚ)
    (h2 : 2 ≤ rows.length) (h4 : ∀ r ∈ rows, 4 ≤ r.length) :
    calc_delta_time (Except.ok rows) qs =
      Except.ok (qs.map (splineEval (tablePts rows))) := by
  rw [calc_delta_time, calc_delta_time_core_ok rows h2 h4]
  rfl

/-! ## Claim theorems -/

/-- Claim C1: for every real year, month and day, `calc_modified_julian_day`
returns exactly the specification's formula
`367*Y - floor(7*(Y + floor((M+9)/12))/4) - floor(3*(floor((Y+(M-9)/7)/100)+1)/4)
+ floor(275*M/9) + D + 1721028.5 - 2400000.5`, and when the inputs are
equal-length sequences the formula (with its floors) is applied
element-wise. -/
theorem calc_mjd_matches_spec_formula :
    (∀ Y M D : ℚ, calc_modified_julian_day Y M D = mjd_spec_formula Y M D) ∧
    ∀ ys ms ds : List ℚ, ys.length = ms.length → ys.length = ds.length →
      ∀ i, i < ys.length →
        (calc_modified_julian_day_arr ys ms ds).getD i 0 =
          mjd_spec_formula (ys.getD i 0) (ms.getD i 0) (ds.getD i 0) := by
  constructor
  · intro Y M D
    rfl
  · intro ys ms ds h1 h2 i hi
    rw [calc_modified_julian_day_arr, zipWith3_getD _ _ _ _ _ hi h1 h2]
    rfl

/-- Witness for C1 at the concrete input `(2000, 1, 1)` given as
one-element sequences. -/
theorem calc_mjd_matches_spec_formula_witness :
    (calc_modified_julian_day_arr [2000] [1] [1]).getD 0 0 =
      mjd_spec_formula (([2000] : List ℚ).getD 0 0) (([1] : List ℚ).getD 0 0)
        (([1] : List ℚ).getD 0 0) :=
  calc_mjd_matches_spec_formula.2 [2000] [1] [1] rfl rfl 0 (by decide)

/-- Claim C2: `calc_modified_julian_day` maps 2000-01-01 to exactly
MJD 51544 and 1858-11-17 (the MJD epoch) to exactly MJD 0. -/
theorem calc_mjd_known_epochs :
    calc_modified_julian_day 2000 1 1 = 51544 ∧
    calc_modified_julian_day 1858 11 17 = 0 :=
  ⟨by with_unfolding_all rfl, by with_unfolding_all rfl⟩

/-- Claim C5: when the table file fails to load (missing, unreadable or
malformed), `calc_delta_time` propagates that error to the caller — for
both sequence and scalar queries it returns the load error itself, never a
default or partial result. -/
theorem calc_delta_time_propagates_load_error :
    ∀ (e : String) (iMJD : List ℚ) (q : ℚ),
      calc_delta_time (Except.error e) iMJD = Except.error e ∧
      calc_delta_time_scalar (Except.error e) q = Except.error e :=
  fun _ _ _ => ⟨rfl, rfl⟩

/-- Claim C6: for every load result and every real query `q`, the scalar
query `q` and the one-element sequence query `[q]` agree: the sequence
result is exactly the scalar result wrapped in a one-element list (both
follow the same code path). -/
theorem calc_delta_time_scalar_vector_agree :
    ∀ (load : Except String (List (List ℚ))) (q : ℚ),
      calc_delta_time load [q] =
        (calc_delta_time_scalar load q).map fun v => [v] := by
  intro load q
  cases h : calc_delta_time_core load <;>
    simp [calc_delta_time, calc_delta_time_scalar, h, Except.map]

/-- Claim C7: for every (scalar) input, `calc_modified_julian_day` returns
a numeric array-like value: its result is the `np.array`-wrapped formula
value, a single-element container holding the MJD rather than a bare
scalar. -/
theorem calc_mjd_returns_single_element_array :
    ∀ Y M D : ℚ,
      (calc_modified_julian_day_out Y M D).data =
        [calc_modified_julian_day Y M D] ∧
      (calc_modified_julian_day_out Y M D).data.length = 1 :=
  fun _ _ _ => ⟨rfl, rfl⟩

/-- Claim C8: `calc_modified_julian_day` is total over all rational inputs:
for every year, month and day — including implausible ones such as month 13
or day 0 — it returns a numeric result (the embedding is a total function
into `ℚ`; no exception path exists: every denominator in the formula is a
non-zero constant). -/
theorem calc_mjd_total :
    (∀ Y M D : ℚ, ∃ r : ℚ, calc_modified_julian_day Y M D = r) ∧
    ∃ r : ℚ, calc_modified_julian_day 2020 13 0 = r :=
  ⟨fun _ _ _ => ⟨_, rfl⟩, _, rfl⟩

/-- Claim C9: `calc_modified_julian_day` is translation-equivariant in the
day argument: shifting the day by `d` shifts the result by exactly `d`,
because `DAY` enters the formula only additively, outside every floor. -/
theorem calc_mjd_day_translation :
    ∀ Y M D d : ℚ,
      calc_modified_julian_day Y M (D + d) = calc_modified_julian_day Y M D + d := by
  intro Y M D d
  simp only [calc_modified_julian_day]
  ring

/-- Claim C10: a table with fewer than two data rows makes
`calc_delta_time` fail rather than return a value: such a file loads as a
one-dimensional array, and the two-dimensional column indexing
`dinput[:, 0]` raises an `IndexError`. -/
theorem calc_delta_time_needs_two_rows :
    ∀ (rows : List (List ℚ)) (iMJD : List ℚ), rows.length < 2 →
      calc_delta_time (Except.ok rows) iMJD =
        Except.error "IndexError: too many indices for array" := by
  intro rows iMJD h
  rw [calc_delta_time, calc_delta_time_core, except_bind_ok, getCol, if_pos h]
  rfl

/-- Witness for C10: a one-row table (the single row 1858-11-17 with delta
time 32) makes `calc_delta_time` return the indexing error. -/
theorem calc_delta_time_needs_two_rows_witness :
    calc_delta_time (Except.ok [[1858, 11, 17, 32]]) [0] =
      Except.error "IndexError: too many indices for array" :=
  calc_delta_time_needs_two_rows [[1858, 11, 17, 32]] [0] (by decide)

/-- Claim C3 (amended: the table must have at least two rows, cf. C10):
for every table with at least two rows whose rows convert to strictly
increasing MJDs, `calc_delta_time` returns at a query equal to a table MJD exactly
that row's delta time, and at a query strictly between two consecutive
table MJDs the value of the straight line through those two points; in
particular, on the table with knots (0, 32), (1000, 33), (2000, 34) the
queries 0, 1000, 2000, 500 return 32, 33, 34, 32.5. -/
theorem calc_delta_time_interpolates :
    (∀ rows : List (List ℚ), 2 ≤ rows.length → (∀ r ∈ rows, 4 ≤ r.length) →
      List.Chain' (· < ·) (tableMJD rows) →
      (∀ i, i < rows.length →
        calc_delta_time (Except.ok rows) [(tableMJD rows).getD i 0] =
          Except.ok [(rows.map fun r => r.getD 3 0).getD i 0]) ∧
      (∀ i x, i + 1 < rows.length →
        (tableMJD rows).getD i 0 < x → x < (tableMJD rows).getD (i + 1) 0 →
        calc_delta_time (Except.ok rows) [x] =
          Except.ok [lineThrough ((tablePts rows).getD i (0, 0))
            ((tablePts rows).getD (i + 1) (0, 0)) x])) ∧
    calc_delta_time (Except.ok exampleRows) [0, 1000, 2000, 500] =
      Except.ok [32, 33, 34, 32.5] := by
  constructor
  · intro rows h2 h4 hchain
    have hpair := tablePts_pairwise rows hchain
    have hlen : 2 ≤ (tablePts rows).length := by rw [tablePts_length]; exact h2
    constructor
    · intro i hi
      rw [calc_delta_time_ok rows _ h2 h4]
      have hpt : (tablePts rows).getD i (0, 0) ∈ tablePts rows := by
        rw [List.getD_eq_getElem _ _ (by rw [tablePts_length]; exact hi)]
        exact List.getElem_mem _
      have hk := splineEval_at_knot (tablePts rows) hpair hlen _ hpt
      rw [tablePts_getD rows i hi] at hk
      simp only [List.map_cons, List.map_nil, hk]
    · intro i x hi hlo hhi
      rw [calc_delta_time_ok rows _ h2 h4]
      have hseg := splineEval_segment (tablePts rows) i x hpair
        (by rw [tablePts_length]; exact hi)
        (by rw [tablePts_getD rows i (by omega)]; exact hlo)
        (by rw [tablePts_getD rows (i + 1) hi]; exact le_of_lt hhi)
      simp only [List.map_cons, List.map_nil, hseg]
  · with_unfolding_all rfl

/-- Witness for C3: on the concrete three-row table, the query at the
middle knot's MJD returns the middle row's delta time. -/
theorem calc_delta_time_interpolates_witness :
    calc_delta_time (Except.ok exampleRows) [(tableMJD exampleRows).getD 1 0] =
      Except.ok [(exampleRows.map fun r => r.getD 3 0).getD 1 0] :=
  (calc_delta_time_interpolates.1 exampleRows (by decide) (by decide)
    (by
      have h : tableMJD exampleRows = [0, 1000, 2000] := by with_unfolding_all rfl
      rw [h]
      norm_num [List.chain'_cons, List.chain'_singleton])).1 1 (by decide)

/-- Claim C4: for every table with strictly increasing MJDs and at least
two rows, a query below the table's minimum MJD returns the line through
the two lowest points and a query above the maximum returns the line
through the two highest points (linear extrapolation, not a clamp); in
particular, on the knots (0, 32), (1000, 33), (2000, 34) the queries
-100 and 2500 return 31.9 and 34.5. -/
theorem calc_delta_time_extrapolates :
    (∀ rows : List (List ℚ), 2 ≤ rows.length → (∀ r ∈ rows, 4 ≤ r.length) →
      List.Chain' (· < ·) (tableMJD rows) →
      (∀ x, x < (tableMJD rows).getD 0 0 →
        calc_delta_time (Except.ok rows) [x] =
          Except.ok [lineThrough ((tablePts rows).getD 0 (0, 0))
            ((tablePts rows).getD 1 (0, 0)) x]) ∧
      (∀ x, (tableMJD rows).getD (rows.length - 1) 0 < x →
        calc_delta_time (Except.ok rows) [x] =
          Except.ok [lineThrough ((tablePts rows).getD (rows.length - 2) (0, 0))
            ((tablePts rows).getD (rows.length - 1) (0, 0)) x])) ∧
    calc_delta_time (Except.ok exampleRows) [-100, 2500] =
      Except.ok [31.9, 34.5] := by
  constructor
  · intro rows h2 h4 hchain
    have hpair := tablePts_pairwise rows hchain
    have hlen : 2 ≤ (tablePts rows).length := by rw [tablePts_length]; exact h2
    constructor
    · intro x hx
      rw [calc_delta_time_ok rows _ h2 h4]
      have hb := splineEval_before_first (tablePts rows) x hpair hlen
        (by rw [tablePts_getD rows 0 (by omega)]; exact hx)
      simp only [List.map_cons, List.map_nil, hb]
    · intro x hx
      rw [calc_delta_time_ok rows _ h2 h4]
      have hx' : ((tablePts rows).getD ((tablePts rows).length - 1) (0, 0)).1 < x := by
        rw [tablePts_length, tablePts_getD rows (rows.length - 1) (by omega)]
        exact hx
      have hb := splineEval_beyond_last (tablePts rows) x hpair hlen hx'
      rw [tablePts_length] at hb
      simp only [List.map_cons, List.map_nil, hb]
  · with_unfolding_all rfl

/-- Witness for C4: on the concrete three-row table, the query -100 below
the minimum MJD 0 returns the extrapolated value of the lowest segment. -/
theorem calc_delta_time_extrapolates_witness :
    calc_delta_time (Except.ok exampleRows) [-100] =
      Except.ok [lineThrough ((tablePts exampleRows).getD 0 (0, 0))
        ((tablePts exampleRows).getD 1 (0, 0)) (-100)] :=
  ((calc_delta_time_extrapolates.1 exampleRows (by decide) (by decide)
    (by
      have h : tableMJD exampleRows = [0, 1000, 2000] := by with_unfolding_all rfl
      rw [h]
      norm_num [List.chain'_cons, List.chain'_singleton])).1) (-100)
    (by
      have h : tableMJD exampleRows = [0, 1000, 2000] := by with_unfolding_all rfl
      rw [h]
      norm_num)

/-- Counterexample to C3 as literally stated: a one-row table is a
delta-time table whose MJD column (the single MJD 0 of 1858-11-17) is
trivially strictly increasing, yet the query at that row's MJD does not
return the row's delta time 32 — the call fails with an `IndexError`
instead (see C10), so the claim needs an at-least-two-rows restriction. -/
theorem calc_delta_time_interpolates_counterexample :
    calc_delta_time (Except.ok [[1858, 11, 17, 32]]) [0] ≠ Except.ok [32] := by
  have h : calc_delta_time (Except.ok [[1858, 11, 17, 32]]) [0] =
      Except.error "IndexError: too many indices for array" := by
    with_unfolding_all rfl
  rw [h]
  intro hc
  exact Except.noConfusion hc
